import Mathlib

/-!
Shallow embedding of the warehouse-robot coordination core
(congestion arbiter, charging coordinator, predictive reservation
scheduler, task dispatcher, A* pathfinder) together with proofs and
refutations of the specified properties.

Each definition mirrors one Python function of the repository;
the Python sources are cited in the doc comments.
-/

namespace Warehouse

/-- Grid coordinates, `(row, col)`, as in the Python `Coord = Tuple[int, int]`.
Integers (not naturals) because the source freely forms `r - 1` before
bounds-checking. -/
abbrev Coord := Int × Int

/-- The `RobotStatus` enumeration from `robot_and_initial_state.py`. -/
inductive RobotStatus where
  | idle
  | movingToShelf
  | picking
  | movingToDropoff
  | droppingOff
  | movingToCharge
  | waitingForCharge
  | waitingInQueue
  | charging
deriving DecidableEq, Repr

/-! ## Congestion arbiter (`congestion_model.py`) -/

/-- The slice of `Robot` state that `CongestionManager.coordinate_moves`
reads: id, current position, remaining path (`next_position` is
`path[0]`), status and `carrying_item`. -/
structure CRobot where
  id : String
  position : Coord
  path : List Coord
  status : RobotStatus
  carrying_item : Bool
deriving DecidableEq, Repr

namespace CRobot

/-- Python `Robot.next_position`: head of the remaining path, `None` when empty. -/
def next_position (r : CRobot) : Option Coord :=
  r.path.head?

end CRobot

/-- Insert an element into an ascending list, after any element it
ties with. -/
def insertAsc {α : Type} (le : α → α → Bool) (a : α) :
    List α → List α
  | [] => [a]
  | b :: bs => if le b a then b :: insertAsc le a bs else a :: b :: bs

/-- Python's stable sort (`list.sort` / `sorted`): ascending under the
total preorder `le`, elements that compare equal keeping their original
relative order. -/
def stableSort {α : Type} (le : α → α → Bool) (l : List α) : List α :=
  l.foldl (fun acc a => insertAsc le a acc) []

/-- The statuses that count as "intending to move" in
`coordinate_moves` (line 35 of `congestion_model.py`). -/
def isMovingStatus (s : RobotStatus) : Bool :=
  s = RobotStatus.movingToShelf ∨ s = RobotStatus.movingToDropoff ∨
    s = RobotStatus.movingToCharge

/-- Numeric encoding of the Python sort key
`(r.carrying_item, r.status == MOVING_TO_CHARGE)` compared
lexicographically with `True > False`. -/
def prioKey (r : CRobot) : Nat :=
  (if r.carrying_item then 2 else 0) +
    (if r.status = RobotStatus.movingToCharge then 1 else 0)

/-- One iteration of the priority loop in `coordinate_moves`
(lines 47–57): an approved mover reserves its next cell, a denied mover
(or one with an empty path) reserves its current cell. State is
`(approved ids, future_reserved_cells)`. -/
def congestionStep (st : List String × List Coord) (r : CRobot) :
    List String × List Coord :=
  match r.next_position with
  | some np =>
      if np ∈ st.2 then (st.1, r.position :: st.2)
      else (st.1 ++ [r.id], np :: st.2)
  | none => (st.1, r.position :: st.2)

/-- Embeds `CongestionManager.coordinate_moves` (`congestion_model.py`,
lines 18–59). Stationary robots pre-reserve their cells; movers are
processed in stable descending priority order; the approved ids are
returned. -/
def coordinate_moves (robots : List CRobot) : List String :=
  let moving := robots.filter (fun r => isMovingStatus r.status)
  let stationary := robots.filter (fun r => ¬ isMovingStatus r.status)
  let reserved0 := stationary.map (fun r => r.position)
  let sorted := stableSort (fun a b => prioKey b ≤ prioKey a) moving
  (sorted.foldl congestionStep ([], reserved0)).1

/-- The position of a robot after the tick, as the specification reads
the arbiter's decision: an approved robot stands at its intended next
cell, everyone else at its current cell. -/
def posAfterTick (approved : List String) (r : CRobot) : Coord :=
  if r.id ∈ approved then
    match r.next_position with
    | some np => np
    | none => r.position
  else r.position

/-- All robot positions after applying one tick's approved moves. -/
def positionsAfterTick (robots : List CRobot) : List Coord :=
  robots.map (posAfterTick (coordinate_moves robots))

/-- Three-robot configuration on which the arbiter lets two robots end
the tick on the same cell: `R1` (carrying, hence highest priority) is
approved into `(0,1)`, then `R2` is denied (its next cell `(0,2)` is
reserved by the stationary `R3`) and stays on `(0,1)`. -/
def collisionRobots : List CRobot :=
  [ { id := "R1", position := (0, 0), path := [(0, 1)],
      status := RobotStatus.movingToDropoff, carrying_item := true },
    { id := "R2", position := (0, 1), path := [(0, 2)],
      status := RobotStatus.movingToShelf, carrying_item := false },
    { id := "R3", position := (0, 2), path := [],
      status := RobotStatus.idle, carrying_item := false } ]

/-! ## Charging coordinator, capacity-gated FIFO (`charging_model.py`) -/

/-- One rule of the dynamic charge-target policy
(`dynamic_states` entries: `max_idle_robots`, `full_charge_level`,
`name`). -/
structure DynState where
  max_idle_robots : Int
  full_charge_level : Int
  name : String
deriving DecidableEq, Repr

/-- The slice of `Robot` state that the charging coordinator and the
engine's charge-finish block read and write: id, position, battery,
fixed full-charge level, status and the `charging_status` flag. -/
structure MRobot where
  id : String
  position : Coord
  battery_level : Int
  full_charge_level : Int
  status : RobotStatus
  charging_status : Bool
deriving DecidableEq, Repr

namespace MRobot

/-- Python `Robot.start_charging` (`robot_and_initial_state.py`, lines 152–157). -/
def start_charging (r : MRobot) : MRobot :=
  { r with status := RobotStatus.charging, charging_status := true }

/-- Python `Robot.wait_for_charge` (lines 134–140): only a robot that was
`MOVING_TO_CHARGE` switches to `WAITING_FOR_CHARGE`; otherwise only a
warning is printed and the state is unchanged. -/
def wait_for_charge (r : MRobot) : MRobot :=
  if r.status = RobotStatus.movingToCharge then
    { r with status := RobotStatus.waitingForCharge }
  else r

/-- Python `Robot.stop_charging` (lines 159–164): battery is overwritten with
the robot's fixed `full_charge_level`, the robot becomes `IDLE`. -/
def stop_charging (r : MRobot) : MRobot :=
  { r with battery_level := r.full_charge_level,
           charging_status := false,
           status := RobotStatus.idle }

/-- Python `Robot.charge` (lines 166–179): no-op when already at or above the
fixed full level, otherwise add `amount` and clamp at the full level. -/
def charge (r : MRobot) (amount : Int) : MRobot :=
  if r.full_charge_level ≤ r.battery_level then r
  else
    let b := r.battery_level + amount
    if r.full_charge_level ≤ b then
      { r with battery_level := r.full_charge_level }
    else { r with battery_level := b }

end MRobot

/-- State of `ChargingStation` (`charging_model.py`). The lists hold
the robot records themselves, as the Python lists hold the robot
objects. -/
structure ChargingStation where
  capacity : Nat
  charge_rate : Int
  enable_dynamic_charging : Bool
  dynamic_states : List DynState
  default_charge_level : Int
  default_state_name : String
  static_full_charge_level : Int
  queue : List MRobot
  charging : List MRobot
deriving Repr

namespace ChargingStation

/-- Embeds `ChargingStation.__init__` (lines 15–44): when dynamic charging is
enabled the rules are stably sorted by `max_idle_robots`; otherwise the
fixed `full_charge_level` is used. Both lists start empty. -/
def init (capacity : Nat) (charge_rate : Int)
    (enable_dynamic_charging : Bool) (dynamic_states : List DynState)
    (default_full_charge_level : Int) (full_charge_level : Int)
    (default_state_name : String) : ChargingStation :=
  { capacity := capacity
    charge_rate := charge_rate
    enable_dynamic_charging := enable_dynamic_charging
    dynamic_states :=
      if enable_dynamic_charging then
        stableSort (fun a b => a.max_idle_robots ≤ b.max_idle_robots)
          dynamic_states
      else dynamic_states
    default_charge_level := default_full_charge_level
    default_state_name := default_state_name
    static_full_charge_level := full_charge_level
    queue := []
    charging := [] }

/-- Membership of a robot in a Python list of robot objects
(`robot in self.charging`); robots are identified by their unique id. -/
def hasRobot (l : List MRobot) (r : MRobot) : Bool :=
  l.any (fun x => x.id = r.id)

/-- Embeds `ChargingStation.request_charging` (lines 47–67). Returns the
updated station together with the (possibly updated) robot record. -/
def request_charging (st : ChargingStation) (r : MRobot) :
    ChargingStation × MRobot :=
  if ¬ hasRobot st.charging r ∧ ¬ hasRobot st.queue r then
    if st.charging.length < st.capacity then
      let r' := r.start_charging
      ({ st with charging := st.charging ++ [r'] }, r')
    else
      let r' := r.wait_for_charge
      ({ st with queue := st.queue ++ [r'] }, r')
  else (st, r)

/-- Embeds `ChargingStation._get_current_state_info` restricted to the charge
level (`_get_current_target_level`, lines 69–87): the first rule in the
sorted list whose `max_idle_robots` is ≥ the idle-robot count applies;
with no match, the default level; with dynamic charging disabled, the
fixed level. -/
def _get_current_target_level (st : ChargingStation)
    (idle_robot_count : Int) : Int :=
  if ¬ st.enable_dynamic_charging then st.static_full_charge_level
  else
    match st.dynamic_states.find?
        (fun s => idle_robot_count ≤ s.max_idle_robots) with
    | some s => s.full_charge_level
    | none => st.default_charge_level

/-- The backfill loop of `ChargingStation.update` (lines 116–119):
while a slot is free and the queue is nonempty, pop the queue head,
start it charging, and append it to the charging list. -/
def backfill (capacity : Nat) (charging : List MRobot) :
    List MRobot → List MRobot × List MRobot
  | [] => (charging, [])
  | q :: qs =>
      if charging.length < capacity then
        backfill capacity (charging ++ [q.start_charging]) qs
      else (charging, q :: qs)

/-- Embeds `ChargingStation.update` (lines 88–121): charge every charging
robot by `charge_rate`, collect those at or above the current dynamic
target, remove them, backfill free slots from the FIFO queue, and
return the finishers. -/
def update (st : ChargingStation) (idle_robot_count : Int) :
    ChargingStation × List MRobot :=
  let target := st._get_current_target_level idle_robot_count
  let charged := st.charging.map (fun r => r.charge st.charge_rate)
  let finished := charged.filter (fun r => target ≤ r.battery_level)
  let remaining := charged.filter (fun r => ¬ target ≤ r.battery_level)
  let (charging', queue') := backfill st.capacity remaining st.queue
  ({ st with charging := charging', queue := queue' }, finished)

/-- The operations the simulation engine performs on the station. -/
inductive Op where
  | req (r : MRobot)
  | upd (idle_robot_count : Int)

/-- Apply one operation to the station state. -/
def applyOp (st : ChargingStation) : Op → ChargingStation
  | Op.req r => (st.request_charging r).1
  | Op.upd n => (st.update n).1

/-- Run a sequence of engine operations on the station. -/
def runOps (st : ChargingStation) (ops : List Op) : ChargingStation :=
  ops.foldl applyOp st

end ChargingStation

/-! ## Engine handling of charge finishers (`main.py`, lines 575–586) -/

/-- The `self.charge_exits` map of the engine: station position ↦ exit
cell, as an association list. -/
def lookupExit (charge_exits : List (Coord × Coord)) (p : Coord) :
    Option Coord :=
  (charge_exits.find? (fun e => e.1 = p)).map (fun e => e.2)

/-- The per-finisher block of `SimulationEngine.run` (lines 577–586):
`robot.stop_charging()` followed by relocation to the exit cell when
the `charge_exits` map has an entry for the robot's position (else a
warning is printed and the position is unchanged). -/
def processFinished (charge_exits : List (Coord × Coord)) (r : MRobot) :
    MRobot :=
  let r1 := r.stop_charging
  match lookupExit charge_exits r1.position with
  | some e => { r1 with position := e }
  | none => r1

/-! ## Predictive reservation scheduler (`charging_scheduler.py`) -/

/-- A reservation record `(robot_id, eta, finish_time)`. -/
structure Reservation where
  robot_id : String
  eta : Int
  finish_time : Int
deriving DecidableEq, Repr

/-- The station info the scheduler reads: id and queue cells
(`stations_info` entries; only `queue` is consulted by
`reserve_station`). -/
structure SchedStationInfo where
  id : String
  queue : List Coord
deriving DecidableEq, Repr

/-- The slice of `Robot` state the scheduler reads: id, position,
battery, fixed full-charge level and move speed. -/
structure SRobot where
  id : String
  position : Coord
  battery_level : Int
  full_charge_level : Int
  move_speed : Nat
deriving DecidableEq, Repr

/-- State of `ChargingScheduler`: cached station infos, the charge
rate, and the `reservations` default-dict
(`station_id ↦ reservation list`, represented as an association list
whose entries may map to `[]`). The path-planning function is passed
explicitly to the operations that need it. -/
structure ChargingScheduler where
  stations_info : List SchedStationInfo
  charge_rate : Int
  reservations : List (String × List Reservation)
deriving Repr

namespace ChargingScheduler

/-- Python `self.reservations.get(station_id, [])`. -/
def getReservations (sch : ChargingScheduler) (sid : String) :
    List Reservation :=
  ((sch.reservations.find? (fun e => e.1 = sid)).map (fun e => e.2)).getD []

/-- Whether `station_id in self.reservations` (an entry exists, possibly
empty). -/
def hasKey (sch : ChargingScheduler) (sid : String) : Bool :=
  sch.reservations.any (fun e => e.1 = sid)

/-- Store a station's reservation list, replacing an existing entry or
creating one (the default-dict materialises the key on first append). -/
def setReservations (sch : ChargingScheduler) (sid : String)
    (recs : List Reservation) : ChargingScheduler :=
  if sch.hasKey sid then
    { sch with reservations :=
        sch.reservations.map (fun e => if e.1 = sid then (sid, recs) else e) }
  else
    { sch with reservations := sch.reservations ++ [(sid, recs)] }

/-- Embeds `ChargingScheduler._travel_time` (lines 42–64): path length from the
supplied planner, `none` standing for `math.inf` (no planner errors are
modelled; a missing or empty path is infinite), and
`ceil(len(path) / move_speed)` otherwise. -/
def _travel_time (plan_route : Coord → Coord → Option (List Coord))
    (robot : SRobot) (entry : Coord) : Option Nat :=
  match plan_route robot.position entry with
  | none => none
  | some [] => none
  | some p => some ((p.length + robot.move_speed - 1) / robot.move_speed)

/-- Embeds `ChargingScheduler.reserve_station` (lines 132–179): fails on an
unknown station, on an existing reservation of the same robot **at that
station**, on a missing queue, on an unreachable entry cell or a
non-positive charge rate; otherwise appends
`(robot.id, eta, finish_time)` to the station's list. -/
def reserve_station (plan_route : Coord → Coord → Option (List Coord))
    (sch : ChargingScheduler) (robot : SRobot) (station_id : String)
    (current_time : Int) : ChargingScheduler × Bool :=
  match sch.stations_info.find? (fun s => s.id = station_id) with
  | none => (sch, false)
  | some info =>
      let existing := sch.getReservations station_id
      if existing.any (fun rec => rec.robot_id = robot.id) then (sch, false)
      else if info.queue.isEmpty then (sch, false)
      else
        let entry := info.queue.getLast?.getD (0, 0)
        match _travel_time plan_route robot entry with
        | none => (sch, false)
        | some travel =>
            if sch.charge_rate ≤ 0 then (sch, false)
            else
              let eta := current_time + (travel : Int)
              let remaining_charge :=
                max 0 (robot.full_charge_level - robot.battery_level)
              let charge_steps :=
                (remaining_charge + sch.charge_rate - 1) / sch.charge_rate
              let finish := eta + charge_steps
              (sch.setReservations station_id
                (existing ++ [⟨robot.id, eta, finish⟩]), true)

/-- Embeds `ChargingScheduler.release_station` (lines 181–211): removes every
reservation of `robot_id` at `station_id`; reports failure for empty
ids, a station with no reservation entry, or no record removed. -/
def release_station (sch : ChargingScheduler) (robot_id station_id : String) :
    ChargingScheduler × Bool :=
  if robot_id = "" ∨ station_id = "" then (sch, false)
  else if ¬ sch.hasKey station_id then (sch, false)
  else
    let recs := sch.getReservations station_id
    let recs' := recs.filter (fun rec => rec.robot_id ≠ robot_id)
    (sch.setReservations station_id recs',
      decide (recs'.length < recs.length))

/-- Embeds `ChargingScheduler.clean_expired_reservations` (lines 231–253):
keep, in every station's list, exactly the records with
`finish_time > current_time`. -/
def clean_expired_reservations (sch : ChargingScheduler)
    (current_time : Int) : ChargingScheduler :=
  { sch with reservations :=
      sch.reservations.map (fun e =>
        (e.1, e.2.filter (fun rec => current_time < rec.finish_time))) }

/-- Embeds `ChargingScheduler.__init__`: empty reservation map. -/
def init (infos : List SchedStationInfo) (charge_rate : Int) :
    ChargingScheduler :=
  { stations_info := infos, charge_rate := charge_rate, reservations := [] }

/-- The scheduler operations a run consists of. -/
inductive Op where
  | reserve (robot : SRobot) (station_id : String) (current_time : Int)
  | release (robot_id station_id : String)
  | clean (current_time : Int)

/-- Apply one scheduler operation. -/
def applyOp (plan_route : Coord → Coord → Option (List Coord))
    (sch : ChargingScheduler) : Op → ChargingScheduler
  | Op.reserve r sid t => (reserve_station plan_route sch r sid t).1
  | Op.release rid sid => (sch.release_station rid sid).1
  | Op.clean t => sch.clean_expired_reservations t

/-- Run a sequence of scheduler operations. -/
def runOps (plan_route : Coord → Coord → Option (List Coord))
    (sch : ChargingScheduler) (ops : List Op) : ChargingScheduler :=
  ops.foldl (applyOp plan_route) sch

/-- Number of live reservation records held by one robot, summed over
all stations. -/
def reservationCount (sch : ChargingScheduler) (robot_id : String) : Nat :=
  (sch.reservations.map
    (fun e => (e.2.filter (fun rec => rec.robot_id = robot_id)).length)).sum

end ChargingScheduler

/-! ## Task dispatcher (`taskmanager.py`) -/

/-- A task record as generated by `TaskManager.generate_random_task`
(the fields `assign_pending_tasks` reads). -/
structure Task where
  task_id : Nat
  shelf_locations : List Coord
  retry_count : Nat
  max_retries : Nat
deriving DecidableEq, Repr

/-- The slice of `Robot` state the dispatcher reads for an available
(idle, sufficiently charged) robot. -/
structure ARobot where
  id : String
  position : Coord
deriving DecidableEq, Repr

/-- Python `task["retry_count"] += 1` after a planning failure. -/
def bumpRetry (t : Task) : Task :=
  { t with retry_count := t.retry_count + 1 }

/-- Loop state of `TaskManager.assign_pending_tasks` (lines 145–192):
the remaining available robots, the tasks kept for the next round
(`unassigned_tasks`), the abandoned tasks (`failed_tasks`) and the
successful robot-task pairings. -/
structure AssignState where
  available : List ARobot
  unassigned : List Task
  failed : List Task
  assignments : List (String × Nat)
deriving Repr

/-- One iteration of the task loop (lines 149–192): a task at or past
its retry limit is abandoned; with no robot left the task is kept;
otherwise the first available robot plans to the task's first shelf —
a non-empty path assigns the task, a failure bumps the retry count,
re-queues the task and returns the robot to the end of the pool. -/
def assignStep (plan : Coord → Coord → Option (List Coord))
    (st : AssignState) (task : Task) : AssignState :=
  if task.max_retries ≤ task.retry_count then
    { st with failed := st.failed ++ [task] }
  else
    match st.available with
    | [] => { st with unassigned := st.unassigned ++ [task] }
    | robot :: rest =>
        let target := task.shelf_locations.headD (0, 0)
        match plan robot.position target with
        | some p =>
            if 0 < p.length then
              { st with available := rest,
                        assignments := st.assignments ++ [(robot.id, task.task_id)] }
            else
              { st with available := rest ++ [robot],
                        unassigned := st.unassigned ++ [bumpRetry task] }
        | none =>
            { st with available := rest ++ [robot],
                      unassigned := st.unassigned ++ [bumpRetry task] }

/-- Embeds `TaskManager.assign_pending_tasks` (lines 96–202), for a given
post-shuffle list of available robots. Returns
`(new task queue, abandoned tasks, assignments)`. With an empty queue
or no available robot the call returns early and changes nothing. -/
def assign_pending_tasks (plan : Coord → Coord → Option (List Coord))
    (available : List ARobot) (task_queue : List Task) :
    List Task × List Task × List (String × Nat) :=
  if task_queue.isEmpty then (task_queue, [], [])
  else if available.isEmpty then (task_queue, [], [])
  else
    let fin := task_queue.foldl (assignStep plan)
      ⟨available, [], [], []⟩
    (fin.unassigned, fin.failed, fin.assignments)

/-! ## A* pathfinder (`routing.py`) -/

/-- The warehouse matrix: a rectangular list of cell-type codes
(`0=aisle, 1=shelf, 2=picking-station, 3=charge-station,
4=charge-queue, 5=charge-exit, 6=picking-queue, 7=picking-exit`,
`warehouse_layout.CELL_CODES`). -/
abbrev Grid := List (List Nat)

namespace Grid

/-- Python `warehouse_matrix.shape[0]`. -/
def rows (g : Grid) : Nat := g.length

/-- Python `warehouse_matrix.shape[1]`. -/
def cols (g : Grid) : Nat := (g.head?.map List.length).getD 0

/-- Python `warehouse_matrix[r, c]` for an in-bounds coordinate. -/
def cellI (g : Grid) (p : Coord) : Nat :=
  (((g.get? p.1.toNat).getD []).get? p.2.toNat).getD 1

/-- Python `0 <= nr < rows and 0 <= nc < cols`. -/
def inBounds (g : Grid) (p : Coord) : Bool :=
  0 ≤ p.1 ∧ p.1 < (g.rows : Int) ∧ 0 ≤ p.2 ∧ p.2 < (g.cols : Int)

end Grid

/-- The static passable codes of `plan_route.neighbors`
(`routing.py`, line 89): `cell_type in [0, 4, 5, 6, 7]`. -/
def passableCodes : List Nat := [0, 4, 5, 6, 7]

/-- The per-candidate admission test of `plan_route.neighbors`
(lines 77–90): in bounds; not a dynamic obstacle unless it is the
goal; not a forbidden cell unless it is the goal; of a passable static
type or exactly the goal. -/
def candidateOK (g : Grid) (dyn forb : List Coord) (target p : Coord) :
    Bool :=
  g.inBounds p &&
  ! (decide (p ∈ dyn) && decide (p ≠ target)) &&
  ! (decide (p ∈ forb) && decide (p ≠ target)) &&
  (decide (g.cellI p ∈ passableCodes) || decide (p = target))

/-- Embeds `plan_route.neighbors` (lines 73–91): the four 4-connected
candidates, in source order, filtered by the admission test. -/
def neighbors (g : Grid) (dyn forb : List Coord) (target pos : Coord) :
    List Coord :=
  [(pos.1 + 1, pos.2), (pos.1 - 1, pos.2),
   (pos.1, pos.2 + 1), (pos.1, pos.2 - 1)].filter
    (candidateOK g dyn forb target)

/-- Manhattan-distance heuristic (lines 93–95). -/
def heuristic (target pos : Coord) : Int :=
  ((pos.1 - target.1).natAbs : Int) + ((pos.2 - target.2).natAbs : Int)

/-- An entry of the `open_list` heap:
`(f_score, g_score, position, path)`. -/
structure Node where
  f : Int
  g : Int
  pos : Coord
  path : List Coord
deriving DecidableEq, Repr

/-- Python `<` on coordinate tuples (lexicographic). -/
def coordLt (a b : Coord) : Bool :=
  a.1 < b.1 || (a.1 = b.1 && a.2 < b.2)

/-- Python `<` on path lists (lexicographic over coordinate tuples). -/
def pathLt : List Coord → List Coord → Bool
  | [], [] => false
  | [], _ :: _ => true
  | _ :: _, [] => false
  | x :: xs, y :: ys => coordLt x y || (x = y && pathLt xs ys)

/-- The total order under which `heapq` compares heap entries:
lexicographic on `(f, g, pos, path)`. -/
def nodeLe (a b : Node) : Bool :=
  a.f < b.f || (a.f = b.f &&
    (a.g < b.g || (a.g = b.g &&
      (coordLt a.pos b.pos || (a.pos = b.pos &&
        (pathLt a.path b.path || a.path = b.path))))))

/-- Python `heapq.heappush` modelled on the sorted-list representation of the
heap: insert keeping the list sorted by `nodeLe`. Since `nodeLe` is a
total order on the entry values, popping the head of the sorted list is
exactly popping the heap minimum. -/
def insertNode (n : Node) : List Node → List Node
  | [] => [n]
  | m :: ms => if nodeLe m n then m :: insertNode n ms else n :: m :: ms

/-- Python `cost_map.get(neighbor, 1)` (line 124). -/
def lookupCost (cost : List (Coord × Int)) (p : Coord) : Int :=
  ((cost.find? (fun e => e.1 = p)).map (fun e => e.2)).getD 1

/-- The `while open_list` loop of `plan_route` (lines 104–131), with an
explicit fuel parameter for termination (the returned value of every
theorem below is reached with fuel to spare). A popped node already in
the closed set is skipped; reaching the goal returns the accumulated
path without its first cell; otherwise the node is expanded and its
admissible unclosed neighbours pushed. -/
def astarLoop (g : Grid) (dyn forb : List Coord)
    (cost : List (Coord × Int)) (target : Coord) :
    Nat → List Node → List Coord → Option (List Coord)
  | 0, _, _ => none
  | _ + 1, [], _ => none
  | fuel + 1, n :: rest, closed =>
      if n.pos ∈ closed then astarLoop g dyn forb cost target fuel rest closed
      else if n.pos = target then some ((n.path ++ [n.pos]).drop 1)
      else
        let closed' := n.pos :: closed
        let open' :=
          (neighbors g dyn forb target n.pos).foldl (fun acc nb =>
            if nb ∈ closed' then acc
            else
              let g2 := n.g + lookupCost cost nb
              insertNode ⟨g2 + heuristic target nb, g2, nb,
                n.path ++ [n.pos]⟩ acc) rest
        astarLoop g dyn forb cost target fuel open' closed'

/-- Fuel that the concrete runs below never exhaust. -/
def fuelFor (g : Grid) : Nat :=
  (g.rows * g.cols + 1) * (4 * g.rows * g.cols + 2) + 1

/-- Embeds `plan_route` (`routing.py`, lines 38–131): A* from the singleton
open list `[(h(start), 0, start, [])]` and an empty closed set.
`none` models both `dynamic_obstacles=None` and `[]` (the Python
truthiness test makes them equivalent), so both are passed as `[]`. -/
def plan_route (start target : Coord) (g : Grid)
    (dyn forb : List Coord) (cost : List (Coord × Int)) :
    Option (List Coord) :=
  astarLoop g dyn forb cost target (fuelFor g)
    [⟨heuristic target start, 0, start, []⟩] []

/-! ## Concrete instances used by the theorems -/

/-- The dynamic-charging configuration of `charging_config.py`:
capacity 1, charge rate 5, rules `[{0, 70, "Busy"}, {1, 85, "Normal"}]`,
default level 100, fixed fallback level 80. -/
def stationCfg : ChargingStation :=
  ChargingStation.init 1 5 true
    [⟨0, 70, "Busy"⟩, ⟨1, 85, "Normal"⟩] 100 80 "Idle"

/-- An obstacle-free 5×5 grid (all cells aisles). -/
def grid5 : Grid := List.replicate 5 (List.replicate 5 0)

/-- A 1×3 strip whose middle cell is a picking station (code 2). -/
def gridStation : Grid := [[0, 2, 0]]

/-- A 1×2 strip whose second cell is a shelf (code 1). -/
def gridShelf : Grid := [[0, 1]]

/-- A 1×3 strip ending in a shelf cell that is also dynamically
occupied and forbidden. -/
def gridObstructedGoal : Grid := [[0, 0, 1]]

/-- Helper: `plan_route` returns the empty path whenever start and goal
coincide — the very first popped node is the goal. -/
theorem plan_route_self (g : Grid) (dyn forb : List Coord)
    (cost : List (Coord × Int)) (s : Coord) :
    plan_route s s g dyn forb cost = some [] := by
  simp [plan_route, fuelFor, astarLoop]

/-! ## Claim theorems -/

/-- C1: the no-collision invariant of the Congestion Arbiter is
violated by the code. In `collisionRobots` the three current positions
are pairwise distinct, yet after the arbiter's decision (approved
robots on their next cell, all others on their current cell) two robots
stand on the same cell: the carrying robot `R1` is approved into
`(0,1)` before the mover `R2`, whose own move is then denied, is left
standing on `(0,1)`. -/
theorem congestion_collision_bug :
    (collisionRobots.map (fun r => r.position)).Nodup ∧
      ¬ (positionsAfterTick collisionRobots).Nodup := by
  decide

/-- C4: with the dynamic rules `[{0, 70, "Busy"}, {1, 85, "Normal"}]`
and default 100, the selected charge target is 70 at idle count 0, 85
at idle count 1, and 100 at idle count 2. -/
theorem dynamic_charge_target_selection :
    stationCfg._get_current_target_level 0 = 70 ∧
      stationCfg._get_current_target_level 1 = 85 ∧
      stationCfg._get_current_target_level 2 = 100 := by
  decide

/-- C10: `request_charging` is a no-op for a robot already present in
the charging list or the waiting queue: neither list changes and the
robot record is untouched. -/
theorem request_charging_idempotent (st : ChargingStation) (r : MRobot)
    (h : ChargingStation.hasRobot st.charging r = true ∨
      ChargingStation.hasRobot st.queue r = true) :
    st.request_charging r = (st, r) := by
  unfold ChargingStation.request_charging
  rcases h with h | h <;> simp [h]

/-- Witness for C10 at a concrete station already holding `R1` in its
charging list. -/
theorem request_charging_idempotent_witness :
    (ChargingStation.hasRobot
        { stationCfg with
            charging := [⟨"R1", (0, 14), 50, 100, RobotStatus.charging, true⟩] }.charging
        ⟨"R1", (0, 14), 50, 100, RobotStatus.charging, true⟩ = true ∨
      ChargingStation.hasRobot
        { stationCfg with
            charging := [⟨"R1", (0, 14), 50, 100, RobotStatus.charging, true⟩] }.queue
        ⟨"R1", (0, 14), 50, 100, RobotStatus.charging, true⟩ = true) ∧
    { stationCfg with
        charging := [⟨"R1", (0, 14), 50, 100, RobotStatus.charging, true⟩]
      }.request_charging ⟨"R1", (0, 14), 50, 100, RobotStatus.charging, true⟩ =
      ({ stationCfg with
          charging := [⟨"R1", (0, 14), 50, 100, RobotStatus.charging, true⟩] },
        ⟨"R1", (0, 14), 50, 100, RobotStatus.charging, true⟩) :=
  ⟨Or.inl (by decide),
    request_charging_idempotent _ _ (Or.inl (by decide))⟩

/-- C7: the pathfinder's traversability test admits a cell iff its
static type is passable and it is neither a dynamic obstacle nor
forbidden — unless the cell is exactly the goal, which is always
admitted; consequently a returned path may terminate at a goal cell
that is simultaneously occupied, forbidden and of a non-traversable
static type (here a shelf, code 1). -/
theorem traversability_iff :
    (∀ (g : Grid) (dyn forb : List Coord) (target p : Coord),
        g.inBounds p = true →
        (candidateOK g dyn forb target p = true ↔
          (p = target ∨
            (g.cellI p ∈ passableCodes ∧ p ∉ dyn ∧ p ∉ forb)))) ∧
    plan_route (0, 0) (0, 2) gridObstructedGoal [(0, 2)] [(0, 2)] [] =
      some [(0, 1), (0, 2)] ∧
    Grid.cellI gridObstructedGoal (0, 2) = 1 := by
  refine ⟨?_, by decide, by decide⟩
  intro g dyn forb target p hp
  by_cases hpt : p = target
  · subst hpt
    simp [candidateOK, hp]
  · simp [candidateOK, hp, hpt]
    tauto

/-- Witness for the universally quantified part of C7, at a concrete
in-bounds cell of the 5×5 grid. -/
theorem traversability_iff_witness :
    Grid.inBounds grid5 (1, 2) = true ∧
    (candidateOK grid5 [] [] (0, 0) (1, 2) = true ↔
      ((1, 2) : Coord) = (0, 0) ∨
        (Grid.cellI grid5 (1, 2) ∈ passableCodes ∧
          ((1, 2) : Coord) ∉ ([] : List Coord) ∧
          ((1, 2) : Coord) ∉ ([] : List Coord))) :=
  ⟨by decide, traversability_iff.1 grid5 [] [] (0, 0) (1, 2) (by decide)⟩

/-- C8: on the obstacle-free 5×5 grid, `plan_route((0,0),(0,4))`
returns exactly the four-step path `[(0,1),(0,2),(0,3),(0,4)]`
(the start cell excluded), and `plan_route(start, start)` returns the
empty path for every in-bounds start cell. -/
theorem pathfinder_concrete :
    plan_route (0, 0) (0, 4) grid5 [] [] [] = some [(0, 1), (0, 2), (0, 3), (0, 4)] ∧
    ∀ s : Coord, Grid.inBounds grid5 s = true →
      plan_route s s grid5 [] [] [] = some [] :=
  ⟨by decide, fun s _ => plan_route_self grid5 [] [] [] s⟩

/-- Witness for the quantified part of C8 at the concrete traversable
start cell `(2,2)`. -/
theorem pathfinder_concrete_witness :
    Grid.inBounds grid5 (2, 2) = true ∧
      plan_route (2, 2) (2, 2) grid5 [] [] [] = some [] :=
  ⟨by decide, pathfinder_concrete.2 (2, 2) (by decide)⟩

/-- C9 counterexample: a picking-station cell (code 2) adjacent to the
current cell is **not** admitted by the traversability test when it is
not the goal (the station strip yields no neighbours at all), refuting
"station cells are always passable"; and a shelf cell (code 1) **is**
admitted when it is exactly the goal, refuting "shelf cells are never
passable". -/
theorem station_cell_not_passable_counterexample :
    Grid.cellI gridStation (0, 1) = 2 ∧
    neighbors gridStation [] [] (0, 2) (0, 0) = [] ∧
    Grid.cellI gridShelf (0, 1) = 1 ∧
    neighbors gridShelf [] [] (0, 1) (0, 0) = [(0, 1)] := by
  decide

/-- C9 amended: queue and exit cells (codes 4–7) are always admitted by
the traversability test when unobstructed; shelf cells (code 1) and
station cells (codes 2 and 3) are admitted only when the cell is
exactly the goal. -/
theorem passability_amended :
    (∀ (g : Grid) (dyn forb : List Coord) (target p : Coord),
        g.inBounds p = true → p ∉ dyn → p ∉ forb →
        g.cellI p ∈ ([4, 5, 6, 7] : List Nat) →
        candidateOK g dyn forb target p = true) ∧
    (∀ (g : Grid) (dyn forb : List Coord) (target p : Coord),
        g.cellI p = 1 → p ≠ target →
        candidateOK g dyn forb target p = false) ∧
    (∀ (g : Grid) (dyn forb : List Coord) (target p : Coord),
        (g.cellI p = 2 ∨ g.cellI p = 3) → p ≠ target →
        candidateOK g dyn forb target p = false) := by
  refine ⟨?_, ?_, ?_⟩
  · intro g dyn forb target p hb hd hf hc
    simp only [List.mem_cons, List.not_mem_nil, or_false] at hc
    have : g.cellI p ∈ passableCodes := by
      simp only [passableCodes, List.mem_cons]
      tauto
    simp [candidateOK, hb, hd, hf, this]
  · intro g dyn forb target p hc hpt
    simp [candidateOK, hc, hpt, passableCodes]
  · intro g dyn forb target p hc hpt
    rcases hc with hc | hc <;> simp [candidateOK, hc, hpt, passableCodes]

/-- Witness for C9's amended claim at concrete cells: a charge-queue
cell (code 4) is admitted, a shelf and a charge-station cell are
rejected when not the goal. -/
theorem passability_amended_witness :
    (Grid.inBounds [[0, 4]] (0, 1) = true ∧
      candidateOK [[0, 4]] [] [] (5, 5) (0, 1) = true) ∧
    (Grid.cellI gridShelf (0, 1) = 1 ∧
      candidateOK gridShelf [] [] (5, 5) (0, 1) = false) ∧
    (Grid.cellI gridStation (0, 1) = 2 ∧
      candidateOK gridStation [] [] (5, 5) (0, 1) = false) :=
  ⟨⟨by decide,
      passability_amended.1 [[0, 4]] [] [] (5, 5) (0, 1) (by decide)
        (by decide) (by decide) (by decide)⟩,
    ⟨by decide,
      passability_amended.2.1 gridShelf [] [] (5, 5) (0, 1) (by decide)
        (by decide)⟩,
    ⟨by decide,
      passability_amended.2.2 gridStation [] [] (5, 5) (0, 1)
        (Or.inl (by decide)) (by decide)⟩⟩

/-- Helper: the backfill loop never grows the charging list past the
capacity. -/
theorem backfill_length_le (capacity : Nat) :
    ∀ (q charging : List MRobot), charging.length ≤ capacity →
      (ChargingStation.backfill capacity charging q).1.length ≤ capacity := by
  intro q
  induction q with
  | nil =>
      intro charging h
      simpa [ChargingStation.backfill] using h
  | cons x xs ih =>
      intro charging h
      by_cases hlt : charging.length < capacity
      · simpa [ChargingStation.backfill, hlt] using
          ih (charging ++ [x.start_charging]) (by simpa using hlt)
      · simpa [ChargingStation.backfill, hlt] using h

/-- Helper: `request_charging` preserves the capacity bound on the
charging list. -/
theorem request_charging_capacity (st : ChargingStation) (r : MRobot)
    (h : st.charging.length ≤ st.capacity) :
    (st.request_charging r).1.charging.length ≤
      (st.request_charging r).1.capacity := by
  unfold ChargingStation.request_charging
  split
  · split
    · next hlt => simpa using hlt
    · simpa using h
  · simpa using h

/-- Helper: `update` preserves the capacity bound on the charging
list. -/
theorem update_capacity (st : ChargingStation) (n : Int)
    (h : st.charging.length ≤ st.capacity) :
    (st.update n).1.charging.length ≤ (st.update n).1.capacity := by
  have hrem :
      ((st.charging.map (fun r => r.charge st.charge_rate)).filter
        (fun r => ¬ st._get_current_target_level n ≤ r.battery_level)).length ≤
        st.capacity := by
    calc ((st.charging.map (fun r => r.charge st.charge_rate)).filter
          (fun r => ¬ st._get_current_target_level n ≤ r.battery_level)).length
        ≤ (st.charging.map (fun r => r.charge st.charge_rate)).length :=
          List.length_filter_le _ _
      _ = st.charging.length := List.length_map _ _
      _ ≤ st.capacity := h
  simpa [ChargingStation.update] using
    backfill_length_le st.capacity st.queue _ hrem

/-- C2: along every sequence of engine operations (`request_charging`
and `update` calls), the number of robots in the charging list never
exceeds the station capacity. -/
theorem charging_capacity_invariant (ops : List ChargingStation.Op)
    (st : ChargingStation) (h : st.charging.length ≤ st.capacity) :
    (ChargingStation.runOps st ops).charging.length ≤
      (ChargingStation.runOps st ops).capacity := by
  induction ops generalizing st with
  | nil => simpa [ChargingStation.runOps] using h
  | cons op ops ih =>
      have hstep : (ChargingStation.applyOp st op).charging.length ≤
          (ChargingStation.applyOp st op).capacity := by
        cases op with
        | req r => exact request_charging_capacity st r h
        | upd n => exact update_capacity st n h
      simpa [ChargingStation.runOps] using
        ih (ChargingStation.applyOp st op) hstep

/-- Witness for C2: two charge requests and an update against the
capacity-1 configured station keep the charging list within
capacity. -/
theorem charging_capacity_invariant_witness :
    stationCfg.charging.length ≤ stationCfg.capacity ∧
      (ChargingStation.runOps stationCfg
        [ChargingStation.Op.req
            ⟨"R1", (0, 13), 20, 100, RobotStatus.movingToCharge, false⟩,
          ChargingStation.Op.req
            ⟨"R2", (0, 12), 25, 100, RobotStatus.movingToCharge, false⟩,
          ChargingStation.Op.upd 0]).charging.length ≤
      (ChargingStation.runOps stationCfg
        [ChargingStation.Op.req
            ⟨"R1", (0, 13), 20, 100, RobotStatus.movingToCharge, false⟩,
          ChargingStation.Op.req
            ⟨"R2", (0, 12), 25, 100, RobotStatus.movingToCharge, false⟩,
          ChargingStation.Op.upd 0]).capacity :=
  ⟨by decide, charging_capacity_invariant _ stationCfg (by decide)⟩

/-! ## C3: reservation exclusivity -/

/-- A planner for which every station entry is reachable in one step. -/
def planTrivial : Coord → Coord → Option (List Coord) :=
  fun _ e => some [e]

/-- The scheduler over the two configured charge stations of
`warehouse_layout.STATION_LAYOUT`, with charge rate 5. -/
def schedTwoStations : ChargingScheduler :=
  ChargingScheduler.init
    [⟨"CS1", [(0, 13), (0, 12), (0, 11)]⟩,
      ⟨"CS2", [(13, 13), (13, 12), (13, 11)]⟩] 5

/-- A robot at half battery that will ask for reservations. -/
def robotLowBattery : SRobot := ⟨"R1", (0, 0), 50, 100, 1⟩

/-- C3 counterexample: `reserve_station` only rejects a duplicate
reservation **at the same station**, so one robot can hold live
reservations at two different stations at once — here robot `R1`
successfully reserves `CS1` and then `CS2`, and after purging expired
records at the current time it still holds two live reservations. -/
theorem double_reservation_counterexample :
    ChargingScheduler.reservationCount
      (ChargingScheduler.runOps planTrivial schedTwoStations
        [ChargingScheduler.Op.reserve robotLowBattery "CS1" 0,
          ChargingScheduler.Op.reserve robotLowBattery "CS2" 0,
          ChargingScheduler.Op.clean 0]) "R1" = 2 := by
  decide

/-- Per-station reservation exclusivity: no robot id occurs twice in a
single station's reservation list. -/
def ChargingScheduler.PerStationUnique (sch : ChargingScheduler) : Prop :=
  ∀ e ∈ sch.reservations, (e.2.map (fun rec => rec.robot_id)).Nodup

/-- Helper: every entry of the map after `setReservations` is the new
entry or an old one. -/
theorem mem_setReservations {sch : ChargingScheduler} {sid : String}
    {recs : List Reservation} {e' : String × List Reservation}
    (h : e' ∈ (sch.setReservations sid recs).reservations) :
    e' = (sid, recs) ∨ e' ∈ sch.reservations := by
  unfold ChargingScheduler.setReservations at h
  split at h
  · simp only [List.mem_map] at h
    obtain ⟨a, ha, he⟩ := h
    by_cases hc : a.1 = sid
    · left
      rw [← he]
      simp [hc]
    · right
      rw [← he]
      simp [hc]
      exact ha
  · simp only [List.mem_append, List.mem_singleton] at h
    tauto

/-- Helper: under the invariant, any station's current reservation list
has pairwise distinct robot ids. -/
theorem getReservations_nodup {sch : ChargingScheduler}
    (hinv : sch.PerStationUnique) (sid : String) :
    ((sch.getReservations sid).map (fun rec => rec.robot_id)).Nodup := by
  unfold ChargingScheduler.getReservations
  cases hfind : sch.reservations.find? (fun e => e.1 = sid) with
  | none => simp
  | some e =>
      simpa using hinv e (List.mem_of_find?_eq_some hfind)

/-- Helper: `reserve_station` preserves per-station exclusivity. -/
theorem reserve_station_unique
    (plan : Coord → Coord → Option (List Coord))
    (sch : ChargingScheduler) (r : SRobot) (sid : String) (t : Int)
    (hinv : sch.PerStationUnique) :
    (ChargingScheduler.reserve_station plan sch r sid t).1.PerStationUnique := by
  unfold ChargingScheduler.reserve_station
  cases hfind : sch.stations_info.find? (fun s => s.id = sid) with
  | none => exact hinv
  | some info =>
      simp only
      split
      · exact hinv
      · split
        · exact hinv
        · cases htrav : ChargingScheduler._travel_time plan r
              (info.queue.getLast?.getD (0, 0)) with
          | none => exact hinv
          | some travel =>
              simp only
              split
              · exact hinv
              · next hdup _ _ =>
                  intro e' he'
                  rcases mem_setReservations he' with he | he
                  · subst he
                    simp only [List.map_append, List.map_cons,
                      List.map_nil]
                    rw [List.nodup_append]
                    refine ⟨getReservations_nodup hinv sid, by simp, ?_⟩
                    intro a ha
                    simp only [List.mem_singleton]
                    simp only [List.mem_map] at ha
                    obtain ⟨rec, hrec, hid⟩ := ha
                    intro hcontra
                    rw [hcontra] at hid
                    exact hdup (by
                      simp only [List.any_eq_true]
                      exact ⟨rec, hrec, by simp [hid]⟩)
                  · exact hinv e' he


/-- Helper: `release_station` preserves per-station exclusivity. -/
theorem release_station_unique (sch : ChargingScheduler)
    (rid sid : String) (hinv : sch.PerStationUnique) :
    (sch.release_station rid sid).1.PerStationUnique := by
  unfold ChargingScheduler.release_station
  split
  · exact hinv
  · split
    · exact hinv
    · intro e' he'
      rcases mem_setReservations he' with he | he
      · subst he
        exact List.Nodup.sublist
          (List.Sublist.map _ (List.filter_sublist _))
          (getReservations_nodup hinv sid)
      · exact hinv e' he

/-- Helper: `clean_expired_reservations` preserves per-station
exclusivity. -/
theorem clean_expired_unique (sch : ChargingScheduler) (t : Int)
    (hinv : sch.PerStationUnique) :
    (sch.clean_expired_reservations t).PerStationUnique := by
  unfold ChargingScheduler.clean_expired_reservations
  intro e' he'
  simp only [List.mem_map] at he'
  obtain ⟨a, ha, he⟩ := he'
  rw [← he]
  exact List.Nodup.sublist
    (List.Sublist.map _ (List.filter_sublist _)) (hinv a ha)

/-- C3 amended: what the scheduler does guarantee is per-station
exclusivity — after any sequence of `reserve_station`,
`release_station` and `clean_expired_reservations` calls, no robot id
occurs in two live reservation records of the **same** station
(a second `reserve_station` for the same robot at that station fails);
across different stations one robot may hold several live reservations
simultaneously. -/
theorem per_station_reservation_unique
    (plan : Coord → Coord → Option (List Coord))
    (ops : List ChargingScheduler.Op) (sch : ChargingScheduler)
    (hinv : sch.PerStationUnique) :
    (ChargingScheduler.runOps plan sch ops).PerStationUnique := by
  induction ops generalizing sch with
  | nil => simpa [ChargingScheduler.runOps] using hinv
  | cons op ops ih =>
      have hstep : (ChargingScheduler.applyOp plan sch op).PerStationUnique := by
        cases op with
        | reserve r sid t => exact reserve_station_unique plan sch r sid t hinv
        | release rid sid => exact release_station_unique sch rid sid hinv
        | clean t => exact clean_expired_unique sch t hinv
      simpa [ChargingScheduler.runOps] using
        ih (ChargingScheduler.applyOp plan sch op) hstep

/-- Witness for C3's amended claim: the freshly initialised scheduler
satisfies the invariant, and it is preserved across the concrete
double-reservation run. -/
theorem per_station_reservation_unique_witness :
    schedTwoStations.PerStationUnique ∧
      (ChargingScheduler.runOps planTrivial schedTwoStations
        [ChargingScheduler.Op.reserve robotLowBattery "CS1" 0,
          ChargingScheduler.Op.reserve robotLowBattery "CS2" 0,
          ChargingScheduler.Op.clean 0]).PerStationUnique :=
  ⟨by simp [ChargingScheduler.PerStationUnique, schedTwoStations,
      ChargingScheduler.init],
    per_station_reservation_unique planTrivial _ schedTwoStations
      (by simp [ChargingScheduler.PerStationUnique, schedTwoStations,
        ChargingScheduler.init])⟩

/-! ## C5: what happens to a charge finisher -/

/-- A robot at battery 65 currently occupying the charge slot of the
configured station. -/
def robotCharging65 : MRobot :=
  ⟨"R1", (0, 14), 65, 100, RobotStatus.charging, true⟩

/-- The configured station with `robotCharging65` charging. -/
def stationWithR1 : ChargingStation :=
  { stationCfg with charging := [robotCharging65] }

/-- The engine's `charge_exits` map built from
`warehouse_layout.STATION_LAYOUT`: station position ↦ exit cell. -/
def chargeExitsCfg : List (Coord × Coord) :=
  [((0, 14), (1, 14)), ((13, 14), (12, 14))]

/-- C5 counterexample: with idle count 0 the dynamic target is 70 and
the robot charging at 65 finishes this tick (65 + 5 ≥ 70), but the
engine's `stop_charging` call then overwrites its battery with the
robot's fixed `full_charge_level` 100 — not the selected target
level 70. -/
theorem battery_overwritten_counterexample :
    stationWithR1._get_current_target_level 0 = 70 ∧
    (ChargingStation.update stationWithR1 0).2.map
      (fun r => (processFinished chargeExitsCfg r).battery_level) = [100] ∧
    (ChargingStation.update stationWithR1 0).2.map
        (fun r => (processFinished chargeExitsCfg r).battery_level) ≠
      [stationWithR1._get_current_target_level 0] := by
  decide

/-- C5 amended: a robot the coordinator reports as finished had reached
at least the currently selected dynamic target, and the engine then
sets it `IDLE`, overwrites its battery with its fixed
`full_charge_level`, clears the charging flag, and relocates it to the
exit cell when the `charge_exits` map has an entry for its position
(leaving the position unchanged otherwise). -/
theorem finish_charging_amended (st : ChargingStation) (n : Int)
    (exits : List (Coord × Coord)) (r : MRobot)
    (h : r ∈ (st.update n).2) :
    (processFinished exits r).status = RobotStatus.idle ∧
    (processFinished exits r).battery_level = r.full_charge_level ∧
    (processFinished exits r).charging_status = false ∧
    (processFinished exits r).position =
      (lookupExit exits r.position).getD r.position ∧
    st._get_current_target_level n ≤ r.battery_level := by
  refine ⟨?_, ?_, ?_, ?_, ?_⟩
  · cases hl : lookupExit exits r.position <;>
      simp [processFinished, MRobot.stop_charging, hl]
  · cases hl : lookupExit exits r.position <;>
      simp [processFinished, MRobot.stop_charging, hl]
  · cases hl : lookupExit exits r.position <;>
      simp [processFinished, MRobot.stop_charging, hl]
  · cases hl : lookupExit exits r.position <;>
      simp [processFinished, MRobot.stop_charging, hl]
  · simp only [ChargingStation.update, List.mem_filter] at h
    exact of_decide_eq_true h.2

/-- Witness for C5's amended claim on the concrete finished robot of
the counterexample configuration. -/
theorem finish_charging_amended_witness :
    (⟨"R1", (0, 14), 70, 100, RobotStatus.charging, true⟩ : MRobot) ∈
      (ChargingStation.update stationWithR1 0).2 ∧
    ((processFinished chargeExitsCfg
        ⟨"R1", (0, 14), 70, 100, RobotStatus.charging, true⟩).status =
        RobotStatus.idle ∧
      (processFinished chargeExitsCfg
        ⟨"R1", (0, 14), 70, 100, RobotStatus.charging, true⟩).battery_level =
        (100 : Int) ∧
      (processFinished chargeExitsCfg
        ⟨"R1", (0, 14), 70, 100, RobotStatus.charging, true⟩).charging_status =
        false ∧
      (processFinished chargeExitsCfg
        ⟨"R1", (0, 14), 70, 100, RobotStatus.charging, true⟩).position =
        (lookupExit chargeExitsCfg ((0, 14) : Coord)).getD ((0, 14) : Coord) ∧
      stationWithR1._get_current_target_level 0 ≤ (70 : Int)) :=
  ⟨by decide,
    finish_charging_amended stationWithR1 0 chargeExitsCfg
      ⟨"R1", (0, 14), 70, 100, RobotStatus.charging, true⟩ (by decide)⟩

/-! ## C6: task retry exhaustion -/

/-- A planner that always fails. -/
def planFail : Coord → Coord → Option (List Coord) :=
  fun _ _ => none

/-- An idle, charged robot available to the dispatcher. -/
def dispatchRobot : ARobot := ⟨"R1", (7, 0)⟩

/-- A task whose single shelf target will never be reachable. -/
def taskUnreachable : Task := ⟨1, [(2, 2)], 0, 3⟩

/-- One dispatcher round with the failing planner and the single
available robot: the new task queue. -/
def dispatchRound (q : List Task) : List Task :=
  (assign_pending_tasks planFail [dispatchRobot] q).1

/-- C6 counterexample: a task that fails path planning `max_retries = 3`
consecutive times is **not** removed from the pending queue at that
point — after its third failed round it is still queued (re-queued with
`retry_count = 3`), and during those three rounds it was never
reported. -/
theorem exhausted_task_requeued_counterexample :
    dispatchRound (dispatchRound (dispatchRound [taskUnreachable])) =
      [{ taskUnreachable with retry_count := 3 }] ∧
    (assign_pending_tasks planFail [dispatchRobot]
      (dispatchRound (dispatchRound [taskUnreachable]))).2.1 = [] := by
  decide

/-- Helper: branch analysis of `assignStep` for the abandoned list. -/
theorem assignStep_failed (plan : Coord → Coord → Option (List Coord))
    (st : AssignState) (t : Task) :
    (assignStep plan st t).failed =
      st.failed ++ (if t.max_retries ≤ t.retry_count then [t] else []) := by
  by_cases hp : t.max_retries ≤ t.retry_count
  · simp [assignStep, hp]
  · simp only [assignStep, if_neg hp, List.append_nil]
    split
    · rfl
    · split
      · split <;> rfl
      · rfl

/-- Helper: branch analysis of `assignStep` for the assignment list. -/
theorem assignStep_assignments (plan : Coord → Coord → Option (List Coord))
    (st : AssignState) (t : Task) (pr : String × Nat)
    (h : pr ∈ (assignStep plan st t).assignments) :
    pr ∈ st.assignments ∨
      (pr.2 = t.task_id ∧ t.retry_count < t.max_retries) := by
  unfold assignStep at h
  split at h
  · exact Or.inl h
  · next hp =>
      split at h
      · exact Or.inl h
      · simp only [] at h
        split at h
        · split at h
          · rcases List.mem_append.mp h with h' | h'
            · exact Or.inl h'
            · simp only [List.mem_singleton] at h'
              exact Or.inr ⟨by rw [h'], Nat.lt_of_not_le hp⟩
          · exact Or.inl h
        · exact Or.inl h

/-- Helper: branch analysis of `assignStep` for the kept-task list. -/
theorem assignStep_unassigned (plan : Coord → Coord → Option (List Coord))
    (st : AssignState) (t : Task) (t' : Task)
    (h : t' ∈ (assignStep plan st t).unassigned) :
    t' ∈ st.unassigned ∨
      (t.retry_count < t.max_retries ∧ (t' = t ∨ t' = bumpRetry t)) := by
  unfold assignStep at h
  split at h
  · exact Or.inl h
  · next hp =>
      have hlt := Nat.lt_of_not_le hp
      split at h
      · rcases List.mem_append.mp h with h' | h'
        · exact Or.inl h'
        · simp only [List.mem_singleton] at h'
          exact Or.inr ⟨hlt, Or.inl h'⟩
      · simp only [] at h
        split at h
        · split at h
          · exact Or.inl h
          · rcases List.mem_append.mp h with h' | h'
            · exact Or.inl h'
            · simp only [List.mem_singleton] at h'
              exact Or.inr ⟨hlt, Or.inr h'⟩
        · rcases List.mem_append.mp h with h' | h'
          · exact Or.inl h'
          · simp only [List.mem_singleton] at h'
            exact Or.inr ⟨hlt, Or.inr h'⟩

/-- Helper: the dispatcher loop reports exactly the tasks at or past
their retry limit. -/
theorem assignFold_failed (plan : Coord → Coord → Option (List Coord)) :
    ∀ (queue : List Task) (st : AssignState),
      (queue.foldl (assignStep plan) st).failed =
        st.failed ++ queue.filter (fun t => t.max_retries ≤ t.retry_count) := by
  intro queue
  induction queue with
  | nil => intro st; simp
  | cons t ts ih =>
      intro st
      rw [List.foldl_cons, ih, assignStep_failed]
      by_cases hp : t.max_retries ≤ t.retry_count <;>
        simp [List.filter_cons, hp]

/-- Helper: every assignment produced by the dispatcher loop pairs a
robot with a task that had retries to spare. -/
theorem assignFold_assignments (plan : Coord → Coord → Option (List Coord)) :
    ∀ (queue : List Task) (st : AssignState) (pr : String × Nat),
      pr ∈ (queue.foldl (assignStep plan) st).assignments →
      pr ∈ st.assignments ∨
        ∃ t ∈ queue, pr.2 = t.task_id ∧ t.retry_count < t.max_retries := by
  intro queue
  induction queue with
  | nil =>
      intro st pr h
      exact Or.inl h
  | cons t ts ih =>
      intro st pr h
      rw [List.foldl_cons] at h
      rcases ih (assignStep plan st t) pr h with h' | ⟨u, hu, hpr⟩
      · rcases assignStep_assignments plan st t pr h' with h'' | h''
        · exact Or.inl h''
        · exact Or.inr ⟨t, List.mem_cons_self _ _, h''⟩
      · exact Or.inr ⟨u, List.mem_cons_of_mem _ hu, hpr⟩

/-- Helper: every task kept by the dispatcher loop descends (possibly
with one retry-count bump) from a queued task with retries to spare. -/
theorem assignFold_unassigned (plan : Coord → Coord → Option (List Coord)) :
    ∀ (queue : List Task) (st : AssignState) (t' : Task),
      t' ∈ (queue.foldl (assignStep plan) st).unassigned →
      t' ∈ st.unassigned ∨
        ∃ t ∈ queue, t.retry_count < t.max_retries ∧
          (t' = t ∨ t' = bumpRetry t) := by
  intro queue
  induction queue with
  | nil =>
      intro st t' h
      exact Or.inl h
  | cons t ts ih =>
      intro st t' h
      rw [List.foldl_cons] at h
      rcases ih (assignStep plan st t) t' h with h' | ⟨u, hu, hpr⟩
      · rcases assignStep_unassigned plan st t t' h' with h'' | h''
        · exact Or.inl h''
        · exact Or.inr ⟨t, List.mem_cons_self _ _, h''⟩
      · exact Or.inr ⟨u, List.mem_cons_of_mem _ hu, hpr⟩

/-- C6 amended: a task only leaves the pending queue for the abandoned
list at the **start of the next** dispatcher round that has an idle
robot available. In every such round: the reported (abandoned) tasks
are exactly the queued tasks at or past their retry limit; every
assignment made pairs a robot with a task that still had retries to
spare (an exhausted task is never assigned); and every task kept in the
queue descends — possibly with one retry-count bump — from a queued
task that still had retries to spare, so no exhausted task is ever
re-queued again. -/
theorem retry_exhaustion_amended (plan : Coord → Coord → Option (List Coord))
    (available : List ARobot) (queue : List Task)
    (hq : queue ≠ []) (ha : available ≠ []) :
    (assign_pending_tasks plan available queue).2.1 =
      queue.filter (fun t => t.max_retries ≤ t.retry_count) ∧
    (∀ pr ∈ (assign_pending_tasks plan available queue).2.2,
      ∃ t ∈ queue, pr.2 = t.task_id ∧ t.retry_count < t.max_retries) ∧
    (∀ t' ∈ (assign_pending_tasks plan available queue).1,
      ∃ t ∈ queue, t.retry_count < t.max_retries ∧
        (t' = t ∨ t' = bumpRetry t)) := by
  have hq' : queue.isEmpty = false := by
    cases queue with
    | nil => exact absurd rfl hq
    | cons a l => rfl
  have ha' : available.isEmpty = false := by
    cases available with
    | nil => exact absurd rfl ha
    | cons a l => rfl
  unfold assign_pending_tasks
  simp only [hq', ha', Bool.false_eq_true, if_false]
  refine ⟨?_, ?_, ?_⟩
  · simpa using assignFold_failed plan queue ⟨available, [], [], []⟩
  · intro pr hpr
    rcases assignFold_assignments plan queue ⟨available, [], [], []⟩ pr hpr
      with h | h
    · simp at h
    · exact h
  · intro t' ht'
    rcases assignFold_unassigned plan queue ⟨available, [], [], []⟩ t' ht'
      with h | h
    · simp at h
    · exact h

/-- Witness for C6's amended claim: the round after the counterexample
run (queue holding the exhausted task, one robot available) abandons
and reports the task, keeps nothing, assigns nothing. -/
theorem retry_exhaustion_amended_witness :
    ([({ taskUnreachable with retry_count := 3 } : Task)] ≠ ([] : List Task)) ∧
    ([dispatchRobot] ≠ ([] : List ARobot)) ∧
    ((assign_pending_tasks planFail [dispatchRobot]
        [{ taskUnreachable with retry_count := 3 }]).2.1 =
      [{ taskUnreachable with retry_count := 3 }].filter
        (fun t => t.max_retries ≤ t.retry_count) ∧
    (∀ pr ∈ (assign_pending_tasks planFail [dispatchRobot]
        [{ taskUnreachable with retry_count := 3 }]).2.2,
      ∃ t ∈ [({ taskUnreachable with retry_count := 3 } : Task)],
        pr.2 = t.task_id ∧ t.retry_count < t.max_retries) ∧
    (∀ t' ∈ (assign_pending_tasks planFail [dispatchRobot]
        [{ taskUnreachable with retry_count := 3 }]).1,
      ∃ t ∈ [({ taskUnreachable with retry_count := 3 } : Task)],
        t.retry_count < t.max_retries ∧
          (t' = t ∨ t' = bumpRetry t))) :=
  ⟨by simp, by simp,
    retry_exhaustion_amended planFail [dispatchRobot]
      [{ taskUnreachable with retry_count := 3 }] (by simp) (by simp)⟩

end Warehouse
